import Mathlib

/-!
# Verification of the EnvisaLink syslog message classifier

Shallow embedding of `src/parser.js` (functions `parseSyslogMessage`,
`getZoneName`, `parseCID`, table `CID_EVENT_CODES`) over `List Char`,
together with theorems settling the specification claims.

JS strings are modelled as `List Char`; JS regular-expression matching is
modelled by explicit leftmost scanning functions that mirror the concrete
regexes of the source (alternation order, greediness and case-insensitive
canonicalisation included).  JS numbers arising here are zone / partition /
user counts, modelled as `Nat`.
-/

namespace Envisalink

/-- The JS whitespace class (`\s`, also the set trimmed by `String.trim`):
tab through carriage return, space, NBSP and the Unicode space separators. -/
def isWS (c : Char) : Bool :=
  (9 ≤ c.toNat && c.toNat ≤ 13) || c.toNat = 32 || c.toNat = 0xA0 || c.toNat = 0x1680 ||
  (0x2000 ≤ c.toNat && c.toNat ≤ 0x200A) || c.toNat = 0x2028 || c.toNat = 0x2029 ||
  c.toNat = 0x202F || c.toNat = 0x205F || c.toNat = 0x3000 || c.toNat = 0xFEFF

/-- The JS digit class `\d` is exactly the ASCII digits `0`–`9`
(code points 48–57). -/
def isDig (c : Char) : Bool := 48 ≤ c.toNat && c.toNat ≤ 57

/-- ASCII lower-casing (`A`–`Z` are code points 65–90), the canonicalisation
performed by the `i` flag of a non-Unicode JS regex (a non-ASCII character
never matches an ASCII pattern letter in that mode, so mapping only `A`–`Z`
is faithful here). -/
def lowerA (c : Char) : Char :=
  if 65 ≤ c.toNat && c.toNat ≤ 90 then Char.ofNat (c.toNat + 32) else c

/-- `String.prototype.trim`, left side. -/
def trimL (l : List Char) : List Char := l.dropWhile isWS

/-- `String.prototype.trim`, right side. -/
def trimR (l : List Char) : List Char := (l.reverse.dropWhile isWS).reverse

/-- `String.prototype.trim`. -/
def trimJS (l : List Char) : List Char := trimR (trimL l)

/-- Is `pat` literally (case-sensitively) a starting segment of `s`?
(`String.prototype.indexOf` comparison at one candidate position.) -/
def litStart : List Char → List Char → Bool
  | [], _ => true
  | _ :: _, [] => false
  | p :: ps, c :: cs => p == c && litStart ps cs

/-- `String.prototype.indexOf pat`: index of the first occurrence. -/
def firstIndexOf (pat : List Char) : List Char → Option Nat
  | [] => if litStart pat [] then some 0 else none
  | c :: t =>
    if litStart pat (c :: t) then some 0
    else (firstIndexOf pat t).map (· + 1)

/-- Case-insensitively strip the (lower-case) literal pattern `pat` from the
front of `s`, returning the remainder; the building block of the `i`-flag
regex literals of the source. -/
def ciStrip : List Char → List Char → Option (List Char)
  | [], s => some s
  | _ :: _, [] => none
  | p :: ps, c :: cs => if lowerA c = p then ciStrip ps cs else none

/-- `i`-flag regex `pat.test(s)` for a literal pattern: does `pat` occur,
case-insensitively, anywhere in `s`? -/
def ciContains (pat : List Char) : List Char → Bool
  | [] => (ciStrip pat []).isSome
  | c :: t => (ciStrip pat (c :: t)).isSome || ciContains pat t

/-- Leftmost-position scan of a regex engine: try the per-position matcher
`m` at every suffix, left to right (the empty final position included). -/
def scanO (m : List Char → Option α) : List Char → Option α
  | [] => m []
  | c :: t =>
    match m (c :: t) with
    | some r => some r
    | none => scanO m t

/-- The alternation `Open(?:ed)?|Close[d]?|Alarm|Trouble|Tamper|Restore[d]?`
flattened in backtracking order (each optional past-tense suffix is tried
greedily first), lower-cased for `i`-flag comparison. -/
def actionWords : List (List Char) :=
  ["opened", "open", "closed", "close", "alarm", "trouble", "tamper",
   "restored", "restore"].map String.data

/-- The continuation `:\s*(\d+)` of the zone regex after a matched action
word: a literal colon, optional whitespace, then a non-empty greedy digit
run; `cap` is the captured action text. -/
def actionTail (cap : List Char) : List Char → Option (List Char × List Char)
  | [] => none
  | c :: r2 =>
    if c = ':' then
      let ds := (r2.dropWhile isWS).takeWhile isDig
      if ds.isEmpty then none else some (cap, ds)
    else none

/-- One alternative of the zone regex followed by its continuation
`:\s*(\d+)`: the action word `w`, a literal colon, optional whitespace and a
non-empty greedy digit run.  Returns (captured action text, captured digits). -/
def tryAction (w : List Char) (s : List Char) : Option (List Char × List Char) :=
  match ciStrip w s with
  | none => none
  | some r => actionTail (s.take w.length) r

/-- Try the flattened alternatives in order. -/
def tryActions : List (List Char) → List Char → Option (List Char × List Char)
  | [], _ => none
  | w :: ws, s =>
    match tryAction w s with
    | some r => some r
    | none => tryActions ws s

/-- The `\s+` requirement of the zone regex followed by the action
alternation: at least one whitespace character, the rest of the whitespace
run munched greedily, then the alternatives in order. -/
def zoneTail : List Char → Option (List Char × List Char)
  | [] => none
  | c :: r2 => if isWS c then tryActions actionWords (r2.dropWhile isWS) else none

/-- The zone regex
`/Zone\s+(Open(?:ed)?|Close[d]?|Alarm|Trouble|Tamper|Restore[d]?):\s*(\d+)/i`
attempted at one position. -/
def matchZoneAt (s : List Char) : Option (List Char × List Char) :=
  match ciStrip "zone".data s with
  | none => none
  | some r => zoneTail r

/-- `content.match(/Zone\s+(...):\s*(\d+)/i)`: leftmost match, returning the
two capture groups. -/
def findZoneMatch : List Char → Option (List Char × List Char) := scanO matchZoneAt

/-- The capture `(\d{9,10})` of the CID regex: optional whitespace, then a
greedy digit run of which at most ten digits are taken and at least nine are
required. -/
def cidDigits (r3 : List Char) : Option (List Char) :=
  let run := ((r3.dropWhile isWS).takeWhile isDig).take 10
  if 9 ≤ run.length then some run else none

/-- The `\s+Event:\s*(\d{9,10})` continuation of the CID regex after the
literal `CID`. -/
def cidTail : List Char → Option (List Char)
  | [] => none
  | c :: r2 =>
    if isWS c then
      match ciStrip "event:".data (r2.dropWhile isWS) with
      | none => none
      | some r3 => cidDigits r3
    else none

/-- The CID regex `/CID\s+Event:\s*(\d{9,10})/i` attempted at one position,
returning the captured digit token (the greedy `{9,10}` quantifier takes at
most ten digits and requires at least nine). -/
def matchCIDAt (s : List Char) : Option (List Char) :=
  match ciStrip "cid".data s with
  | none => none
  | some r => cidTail r

/-- `content.match(/CID\s+Event:\s*(\d{9,10})/i)`: leftmost match, returning
the captured digit token. -/
def findCIDMatch : List Char → Option (List Char) := scanO matchCIDAt

/-- `zoneMatch[1].replace(/xy$/i, 'e')` for a two-character suffix pattern
`xy` (given lower-case): if the last two characters case-insensitively equal
`xy`, replace them by the single lower-case letter `e`. -/
def replEndE (x y : Char) (l : List Char) : List Char :=
  match l.reverse with
  | b :: a :: rest => if lowerA b = y && lowerA a = x then ('e' :: rest).reverse else l
  | _ => l

/-- The action-word normalisation of `parseSyslogMessage`:
`.replace(/ed$/i, 'e').replace(/ee$/i, 'e')`, then the special case mapping
lower-case `"opene"` to `"Open"`.  The argument is a regex capture made of
ASCII letters, so ASCII lower-casing models `String.prototype.toLowerCase`. -/
def normalizeAction (a : List Char) : List Char :=
  let a1 := replEndE 'e' 'd' a
  let a2 := replEndE 'e' 'e' a1
  if a2.map lowerA = "opene".data then "Open".data else a2

/-- The character class of `content.replace(/^[\[:\]\s]+/, '')`. -/
def hdrStripCh (c : Char) : Bool := c = '[' || c = ':' || c = ']' || isWS c

/-- The vendor markers scanned for when no `"]: "` sequence is present,
in source order. -/
def markers : List (List Char) :=
  ["ENVISALINK".data, "envisalink".data, "EVL4".data, "evl4".data]

/-- The marker loop of the header stripper: the first marker of the list that
occurs anywhere in `raw` wins; the content after it is trimmed, stripped of a
leading colon/bracket/whitespace run, and trimmed again. -/
def stripMarkers : List (List Char) → List Char → List Char
  | [], raw => raw
  | m :: ms, raw =>
    match firstIndexOf m raw with
    | some i => trimJS ((trimJS (raw.drop (i + m.length))).dropWhile hdrStripCh)
    | none => stripMarkers ms raw

/-- The header-stripping stage of `parseSyslogMessage`: everything after the
first `"]: "` (trimmed), else the marker loop, else the raw text unchanged. -/
def stripHeader (raw : List Char) : List Char :=
  match firstIndexOf "]: ".data raw with
  | some i => trimJS (raw.drop (i + 3))
  | none => stripMarkers markers raw

/-- Decimal value of a digit string (`parseInt` on an all-digit input). -/
def decVal (l : List Char) : Nat := l.foldl (fun a c => 10 * a + (c.toNat - 48)) 0

/-- `parseInt(s, 10)` restricted to the shapes reaching it in the source:
the value of the maximal leading digit run.  (All call sites pass strings
captured by `\d` character classes, where this coincides with `parseInt`;
a NaN result cannot arise on those inputs.) -/
def parseIntDec (l : List Char) : Nat := decVal (l.takeWhile isDig)

/-- `String(n)` for a JS integer: decimal digits, no leading zeros. -/
def natDec (n : Nat) : List Char := Nat.toDigits 10 n

/-- A zones dictionary: JSON object mapping zone-number strings to friendly
names, modelled as an association list with JS property lookup. -/
def ZoneDir := List (List Char × List Char)

/-- JS truthiness fallback `s || fb` for an optional string value. -/
def jsOrStr (o : Option (List Char)) (fb : List Char) : List Char :=
  match o with
  | some s => if s.isEmpty then fb else s
  | none => fb

/-- The `CID_EVENT_CODES` lookup table of the source, verbatim. -/
def CID_EVENT_CODES : List (List Char × List Char) :=
  [("100", "Medical Alarm"), ("110", "Fire Alarm"),
   ("115", "Fire Alarm (pull station)"), ("120", "Panic Alarm"),
   ("121", "Duress Alarm"), ("130", "Burglary Alarm"),
   ("131", "Perimeter Alarm"), ("132", "Interior Alarm"),
   ("134", "Entry/Exit Alarm"), ("137", "Tamper Alarm"),
   ("140", "General Alarm"), ("301", "AC Power Loss"),
   ("302", "Low Battery"), ("305", "System Reset"),
   ("350", "Communication Failure"), ("373", "Fire Trouble"),
   ("380", "Sensor Trouble"), ("381", "Loss of Supervision"),
   ("383", "Sensor Tamper"), ("400", "Open/Close"),
   ("401", "Open/Close by User"), ("403", "Open/Close (auto)"),
   ("407", "Remote Arm/Disarm"), ("408", "Quick Arm"),
   ("409", "Keyswitch Arm/Disarm"), ("441", "Armed Stay/Disarmed"),
   ("442", "Armed Away/Disarmed"), ("443", "Armed Night/Disarmed"),
   ("601", "Manual Test"), ("602", "Periodic Test"),
   ("616", "Service Request")].map (fun p => (p.1.data, p.2.data))

/-- The arm-family event codes tested by `isArm` in `parseCID`. -/
def armCodes : List (List Char) :=
  ["400", "401", "403", "407", "408", "409", "441", "442", "443"].map String.data

/-- The friendly-event-name computation of `parseCID` (the `isArm` /
`isAlarm` / table-fallback conditional chain). -/
def cidEventName (qualifier : Char) (eventCode : List Char) : List Char :=
  if eventCode ∈ armCodes then
    if qualifier = '1' then "Disarmed".data
    else if qualifier = '3' then
      if eventCode = "441".data then "Armed Stay".data
      else if eventCode = "442".data then "Armed Away".data
      else if eventCode = "443".data then "Armed Night".data
      else "Armed".data
    else jsOrStr (CID_EVENT_CODES.lookup eventCode) ("CID ".data ++ eventCode)
  else if 100 ≤ parseIntDec eventCode ∧ parseIntDec eventCode < 200 then
    "Alarm".data
  else jsOrStr (CID_EVENT_CODES.lookup eventCode) ("CID ".data ++ eventCode)

/-- The record returned by `parseCID`. -/
structure CIDResult where
  qualifier : Char
  eventCode : List Char
  event : List Char
  partition : Nat
  zoneOrUser : Nat
  description : List Char
  deriving Repr, DecidableEq

/-- `parseCID` of the source: fixed-width field extraction from the digit
token, `null` (here `none`) when shorter than nine characters. -/
def parseCID (cidStr : List Char) : Option CIDResult :=
  if cidStr.length < 9 then none
  else
    let qualifier := cidStr.getD 0 ' '
    let eventCode := (cidStr.drop 1).take 3
    some
      { qualifier := qualifier
        eventCode := eventCode
        event := cidEventName qualifier eventCode
        partition := parseIntDec ((cidStr.drop 4).take 2)
        zoneOrUser := parseIntDec ((cidStr.drop 6).take 3)
        description :=
          jsOrStr (CID_EVENT_CODES.lookup eventCode)
            ("Unknown (".data ++ eventCode ++ ")".data) }

/-- `getZoneName` of the source: look the zone number up under its plain
decimal string form; a missing key or a falsy (empty) name yields the
fallback label. -/
def getZoneName (zones : ZoneDir) (zoneNumber : Nat) : List Char :=
  let key := natDec zoneNumber
  match List.lookup key zones with
  | some v => if v.isEmpty then "Zone ".data ++ key else v
  | none => "Zone ".data ++ key

/-- The event record built by `parseSyslogMessage` (its `timestamp` field,
a wall-clock capture instant, is not part of the functional model). -/
structure ParseResult where
  raw : List Char
  event : List Char
  zone : Option Nat
  zoneName : Option (List Char)
  message : List Char
  partition : Option Nat
  user : Option Nat
  deriving Repr, DecidableEq

/-- `parseSyslogMessage` of the source: header stripping, then the ordered
matcher chain (zone regex, alarm substring, arm/disarm substrings, CID
token) with the `"Other"` fallback.  A `none` second argument models a
`null`/absent zones dictionary (`zones = zones || {}`). -/
def parseSyslogMessage (raw : List Char) (zonesArg : Option ZoneDir) : ParseResult :=
  let zones := zonesArg.getD []
  let content := stripHeader raw
  match findZoneMatch content with
  | some (action, digits) =>
    let act := normalizeAction action
    let z := parseIntDec digits
    { raw := trimJS raw, event := "Zone ".data ++ act, zone := some z,
      zoneName := some (getZoneName zones z), message := content,
      partition := none, user := none }
  | none =>
    if ciContains "alarm".data content then
      { raw := trimJS raw, event := "Alarm".data, zone := none, zoneName := none,
        message := content, partition := none, user := none }
    else if ciContains "arm".data content then
      { raw := trimJS raw,
        event :=
          if ciContains "disarm".data content then "Disarmed".data
          else if ciContains "stay".data content then "Armed Stay".data
          else if ciContains "away".data content then "Armed Away".data
          else if ciContains "night".data content || ciContains "instant".data content then
            "Armed Night".data
          else "Armed".data,
        zone := none, zoneName := none, message := content,
        partition := none, user := none }
    else
      match findCIDMatch content with
      | some tok =>
        match parseCID tok with
        | some cid =>
          let userStr := if cid.zoneOrUser ≠ 0 then ", user ".data ++ natDec cid.zoneOrUser else []
          let partStr := if cid.partition ≠ 0 then "partition ".data ++ natDec cid.partition else []
          { raw := trimJS raw, event := cid.event, zone := none, zoneName := none,
            message := content ++ " (".data ++ cid.description ++
              (if partStr.isEmpty then [] else ", ".data ++ partStr) ++ userStr ++ ")".data,
            partition := some cid.partition, user := some cid.zoneOrUser }
        | none =>
          { raw := trimJS raw, event := "Other".data, zone := none, zoneName := none,
            message := content, partition := none, user := none }
      | none =>
        { raw := trimJS raw, event := "Other".data, zone := none, zoneName := none,
          message := content, partition := none, user := none }

/-- The canonical action labels of the zone-event dialect, keyed by the
canonical spellings of the six recognised action words.  Stated from the
spec's table (`Open`/`Opened` → Open, …) for comparison with the source's
suffix normalisation. -/
def canonActionTable : List (List Char × List Char) :=
  [("Open", "Open"), ("Opened", "Open"), ("Close", "Close"), ("Closed", "Close"),
   ("Alarm", "Alarm"), ("Trouble", "Trouble"), ("Tamper", "Tamper"),
   ("Restore", "Restore"), ("Restored", "Restore")].map (fun p => (p.1.data, p.2.data))

/-- The concrete syslog frame of the spec's idempotence example. -/
def frameEx : List Char := "<134>Jan 1 12:00:00 host ENVISALINK[1]: ".data

/-! ## Whitespace and scanning lemmas

Auxiliary facts used to relate the matchers on trimmed and untrimmed
content: a run of whitespace appended to either end of the content cannot
create or destroy a match of any of the source's regexes. -/

theorem isWS_toNat {c : Char} (h : isWS c = true) :
    c.toNat = 9 ∨ c.toNat = 10 ∨ c.toNat = 11 ∨ c.toNat = 12 ∨ c.toNat = 13 ∨
    c.toNat = 32 ∨ c.toNat = 0xA0 ∨ c.toNat = 0x1680 ∨
    (0x2000 ≤ c.toNat ∧ c.toNat ≤ 0x200A) ∨ c.toNat = 0x2028 ∨ c.toNat = 0x2029 ∨
    c.toNat = 0x202F ∨ c.toNat = 0x205F ∨ c.toNat = 0x3000 ∨ c.toNat = 0xFEFF := by
  simp only [isWS, Bool.or_eq_true, Bool.and_eq_true, decide_eq_true_eq] at h
  omega

theorem lowerA_of_ws {c : Char} (h : isWS c = true) : lowerA c = c := by
  have h' := isWS_toNat h
  rw [lowerA, if_neg]
  simp only [Bool.and_eq_true, decide_eq_true_eq, not_and, not_le]
  intro h65
  rcases h' with h' | h' | h' | h' | h' | h' | h' | h' | ⟨ha, hb⟩ | h' | h' | h' |
    h' | h' | h' <;> omega

theorem ws_ne {c p : Char} (h : isWS c = true) (hp : isWS p = false) : c ≠ p := by
  intro he
  rw [he, hp] at h
  exact Bool.noConfusion h

theorem dig_of_ws {c : Char} (h : isWS c = true) : isDig c = false := by
  have h' := isWS_toNat h
  rw [Bool.eq_false_iff]
  intro hc
  simp only [isDig, Bool.and_eq_true, decide_eq_true_eq] at hc
  rcases h' with h' | h' | h' | h' | h' | h' | h' | h' | ⟨ha, hb⟩ | h' | h' | h' |
    h' | h' | h' <;> omega

theorem ciStrip_len : ∀ {pat s r : List Char}, ciStrip pat s = some r →
    s.length = pat.length + r.length := by
  intro pat
  induction pat with
  | nil =>
    intro s r h
    simp only [ciStrip, Option.some.injEq] at h
    simp [← h]
  | cons p ps ih =>
    intro s r h
    cases s with
    | nil => exact Option.noConfusion h
    | cons c cs =>
      simp only [ciStrip] at h
      by_cases hc : lowerA c = p
      · rw [if_pos hc] at h
        have := ih h
        simp only [List.length_cons]
        omega
      · rw [if_neg hc] at h
        exact Option.noConfusion h

theorem ciStrip_append_ws {w : List Char} (hw : ∀ c ∈ w, isWS c = true) :
    ∀ (pat s : List Char), (∀ p ∈ pat, isWS p = false) →
      ciStrip pat (s ++ w) = (ciStrip pat s).map (· ++ w) := by
  intro pat
  induction pat with
  | nil => intro s _; simp [ciStrip]
  | cons p ps ih =>
    intro s hpat
    cases s with
    | nil =>
      simp only [List.nil_append]
      cases w with
      | nil => simp [ciStrip]
      | cons c w2 =>
        have hc : isWS c = true := hw c (List.mem_cons_self c w2)
        have hne : lowerA c ≠ p := by
          rw [lowerA_of_ws hc]
          exact ws_ne hc (hpat p (List.mem_cons_self p ps))
        simp [ciStrip, hne]
    | cons c cs =>
      simp only [List.cons_append, ciStrip]
      by_cases hc : lowerA c = p
      · rw [if_pos hc, if_pos hc]
        exact ih cs fun q hq => hpat q (List.mem_cons_of_mem p hq)
      · rw [if_neg hc, if_neg hc]
        rfl

theorem dropWhile_ws_all {w : List Char} (hw : ∀ c ∈ w, isWS c = true) :
    w.dropWhile isWS = [] := by
  induction w with
  | nil => rfl
  | cons c t ih =>
    rw [List.dropWhile_cons, if_pos (hw c (List.mem_cons_self c t))]
    exact ih fun q hq => hw q (List.mem_cons_of_mem c hq)

theorem takeWhile_dig_append {w : List Char} (hw : ∀ c ∈ w, isWS c = true) :
    ∀ y, (y ++ w).takeWhile isDig = y.takeWhile isDig := by
  intro y
  induction y with
  | nil =>
    simp only [List.nil_append, List.takeWhile_nil]
    cases w with
    | nil => rfl
    | cons c t =>
      rw [List.takeWhile_cons, if_neg]
      rw [dig_of_ws (hw c (List.mem_cons_self c t))]
      exact Bool.noConfusion
  | cons c t ih =>
    rw [List.cons_append, List.takeWhile_cons, List.takeWhile_cons]
    by_cases hc : isDig c = true
    · rw [if_pos hc, if_pos hc, ih]
    · rw [if_neg hc, if_neg hc]

theorem dropWhile_ws_append {w : List Char} (hw : ∀ c ∈ w, isWS c = true) :
    ∀ x, (x ++ w).dropWhile isWS =
      if x.dropWhile isWS = [] then [] else x.dropWhile isWS ++ w := by
  intro x
  induction x with
  | nil => simp [dropWhile_ws_all hw]
  | cons c t ih =>
    rw [List.cons_append, List.dropWhile_cons, List.dropWhile_cons]
    by_cases hc : isWS c = true
    · rw [if_pos hc, if_pos hc, ih]
    · rw [if_neg hc, if_neg hc, if_neg (by simp)]
      rfl

theorem digits_after_ws_append {w : List Char} (hw : ∀ c ∈ w, isWS c = true)
    (x : List Char) :
    ((x ++ w).dropWhile isWS).takeWhile isDig = (x.dropWhile isWS).takeWhile isDig := by
  rw [dropWhile_ws_append hw]
  by_cases hx : x.dropWhile isWS = []
  · rw [if_pos hx, hx]
  · rw [if_neg hx, takeWhile_dig_append hw]

theorem take_app_of_le : ∀ (n : Nat) (s w : List Char), n ≤ s.length →
    (s ++ w).take n = s.take n := by
  intro n
  induction n with
  | zero => simp
  | succ m ih =>
    intro s w h
    cases s with
    | nil => simp at h
    | cons c t =>
      simp only [List.length_cons] at h
      rw [List.cons_append, List.take_succ_cons, List.take_succ_cons,
        ih t w (by omega)]

theorem drop_len_append : ∀ (a b : List Char), (a ++ b).drop a.length = b := by
  intro a
  induction a with
  | nil => simp
  | cons c t ih => intro b; simpa using ih b

theorem tryActions_empty : tryActions actionWords [] = none := rfl

theorem actionTail_append_ws {w : List Char} (hw : ∀ c ∈ w, isWS c = true)
    (cap : List Char) : ∀ r, actionTail cap (r ++ w) = actionTail cap r := by
  intro r
  cases r with
  | nil =>
    simp only [List.nil_append]
    cases w with
    | nil => rfl
    | cons c w2 =>
      have hc : isWS c = true := hw c (List.mem_cons_self c w2)
      have hne : c ≠ ':' := ws_ne hc (by decide)
      simp [actionTail, hne]
  | cons c r2 =>
    simp only [List.cons_append, actionTail]
    by_cases hc : c = ':'
    · rw [if_pos hc, if_pos hc,
        digits_after_ws_append hw r2]
    · rw [if_neg hc, if_neg hc]

theorem tryAction_append_ws {w : List Char} (hw : ∀ c ∈ w, isWS c = true)
    {wd : List Char} (hwd : ∀ p ∈ wd, isWS p = false) (s : List Char) :
    tryAction wd (s ++ w) = tryAction wd s := by
  unfold tryAction
  rw [ciStrip_append_ws hw wd s hwd]
  cases h : ciStrip wd s with
  | none => rfl
  | some r =>
    show actionTail ((s ++ w).take wd.length) (r ++ w) = actionTail (s.take wd.length) r
    have hlen : wd.length ≤ s.length := by
      have := ciStrip_len h
      omega
    rw [take_app_of_le wd.length s w hlen, actionTail_append_ws hw]

theorem tryActions_append_ws {w : List Char} (hw : ∀ c ∈ w, isWS c = true) :
    ∀ cands, (∀ wd ∈ cands, ∀ p ∈ wd, isWS p = false) →
      ∀ s, tryActions cands (s ++ w) = tryActions cands s := by
  intro cands
  induction cands with
  | nil => intro _ s; rfl
  | cons wd ws ih =>
    intro hc s
    simp only [tryActions]
    rw [tryAction_append_ws hw (hc wd (List.mem_cons_self wd ws)) s]
    cases tryAction wd s with
    | some r => rfl
    | none => exact ih (fun q hq => hc q (List.mem_cons_of_mem wd hq)) s

theorem zoneTail_append_ws {w : List Char} (hw : ∀ c ∈ w, isWS c = true) :
    ∀ r, zoneTail (r ++ w) = zoneTail r := by
  intro r
  cases r with
  | nil =>
    simp only [List.nil_append]
    cases w with
    | nil => rfl
    | cons c w2 =>
      have hc : isWS c = true := hw c (List.mem_cons_self c w2)
      simp only [zoneTail, hc, if_true, if_pos]
      rw [dropWhile_ws_all fun q hq => hw q (List.mem_cons_of_mem c hq)]
      rfl
  | cons c r2 =>
    simp only [List.cons_append, zoneTail]
    by_cases hc : isWS c = true
    · rw [if_pos hc, if_pos hc, dropWhile_ws_append hw]
      by_cases hd : r2.dropWhile isWS = []
      · rw [if_pos hd, hd]
      · rw [if_neg hd, tryActions_append_ws hw actionWords (by decide)]
    · rw [if_neg hc, if_neg hc]

theorem matchZoneAt_append_ws {w : List Char} (hw : ∀ c ∈ w, isWS c = true)
    (s : List Char) : matchZoneAt (s ++ w) = matchZoneAt s := by
  unfold matchZoneAt
  rw [ciStrip_append_ws hw "zone".data s (by decide)]
  cases h : ciStrip "zone".data s with
  | none => rfl
  | some r => exact zoneTail_append_ws hw r

theorem matchZoneAt_ws_head {c : Char} {t : List Char} (hc : isWS c = true) :
    matchZoneAt (c :: t) = none := by
  have hne : lowerA c ≠ 'z' := by
    rw [lowerA_of_ws hc]
    exact ws_ne hc (by decide)
  have he : ciStrip "zone".data (c :: t) = none := by
    rw [show ("zone".data : List Char) = 'z' :: "one".data from rfl]
    simp [ciStrip, hne]
  unfold matchZoneAt
  rw [he]

theorem matchZoneAt_all_ws {t : List Char} (ht : ∀ c ∈ t, isWS c = true) :
    matchZoneAt t = none := by
  cases t with
  | nil => rfl
  | cons c t2 => exact matchZoneAt_ws_head (ht c (List.mem_cons_self c t2))

theorem cidDigits_append_ws {w : List Char} (hw : ∀ c ∈ w, isWS c = true)
    (r3 : List Char) : cidDigits (r3 ++ w) = cidDigits r3 := by
  unfold cidDigits
  rw [digits_after_ws_append hw r3]

theorem cidTail_append_ws {w : List Char} (hw : ∀ c ∈ w, isWS c = true) :
    ∀ r, cidTail (r ++ w) = cidTail r := by
  intro r
  cases r with
  | nil =>
    simp only [List.nil_append]
    cases w with
    | nil => rfl
    | cons c w2 =>
      have hc : isWS c = true := hw c (List.mem_cons_self c w2)
      simp only [cidTail, hc, if_pos]
      rw [dropWhile_ws_all fun q hq => hw q (List.mem_cons_of_mem c hq)]
      rfl
  | cons c r2 =>
    simp only [List.cons_append, cidTail]
    by_cases hc : isWS c = true
    · rw [if_pos hc, if_pos hc, dropWhile_ws_append hw]
      by_cases hd : r2.dropWhile isWS = []
      · rw [if_pos hd, hd]
      · rw [if_neg hd, ciStrip_append_ws hw "event:".data _ (by decide)]
        cases h : ciStrip "event:".data (r2.dropWhile isWS) with
        | none => rfl
        | some r3 => exact cidDigits_append_ws hw r3
    · rw [if_neg hc, if_neg hc]

theorem matchCIDAt_append_ws {w : List Char} (hw : ∀ c ∈ w, isWS c = true)
    (s : List Char) : matchCIDAt (s ++ w) = matchCIDAt s := by
  unfold matchCIDAt
  rw [ciStrip_append_ws hw "cid".data s (by decide)]
  cases h : ciStrip "cid".data s with
  | none => rfl
  | some r => exact cidTail_append_ws hw r

theorem matchCIDAt_ws_head {c : Char} {t : List Char} (hc : isWS c = true) :
    matchCIDAt (c :: t) = none := by
  have hne : lowerA c ≠ 'c' := by
    rw [lowerA_of_ws hc]
    exact ws_ne hc (by decide)
  have he : ciStrip "cid".data (c :: t) = none := by
    rw [show ("cid".data : List Char) = 'c' :: "id".data from rfl]
    simp [ciStrip, hne]
  unfold matchCIDAt
  rw [he]

theorem matchCIDAt_all_ws {t : List Char} (ht : ∀ c ∈ t, isWS c = true) :
    matchCIDAt t = none := by
  cases t with
  | nil => rfl
  | cons c t2 => exact matchCIDAt_ws_head (ht c (List.mem_cons_self c t2))

theorem scanO_ws_front {α : Type} (m : List Char → Option α)
    (hm : ∀ c t, isWS c = true → m (c :: t) = none) :
    ∀ w s, (∀ c ∈ w, isWS c = true) → scanO m (w ++ s) = scanO m s := by
  intro w
  induction w with
  | nil => intro s _; rfl
  | cons c w2 ih =>
    intro s hw
    show (match m (c :: (w2 ++ s)) with
      | some r => some r
      | none => scanO m (w2 ++ s)) = scanO m s
    rw [hm c (w2 ++ s) (hw c (List.mem_cons_self c w2))]
    exact ih s fun q hq => hw q (List.mem_cons_of_mem c hq)

theorem scanO_all_ws {α : Type} (m : List Char → Option α)
    (hm : ∀ t, (∀ c ∈ t, isWS c = true) → m t = none) :
    ∀ w, (∀ c ∈ w, isWS c = true) → scanO m w = none := by
  intro w
  induction w with
  | nil => intro _; exact hm [] (by simp)
  | cons c w2 ih =>
    intro hw
    show (match m (c :: w2) with
      | some r => some r
      | none => scanO m w2) = none
    rw [hm (c :: w2) hw]
    exact ih fun q hq => hw q (List.mem_cons_of_mem c hq)

theorem scanO_ws_back {α : Type} (m : List Char → Option α)
    (hap : ∀ t w, (∀ c ∈ w, isWS c = true) → m (t ++ w) = m t)
    (hall : ∀ t, (∀ c ∈ t, isWS c = true) → m t = none) :
    ∀ s w, (∀ c ∈ w, isWS c = true) → scanO m (s ++ w) = scanO m s := by
  intro s
  induction s with
  | nil =>
    intro w hw
    rw [List.nil_append, scanO_all_ws m hall w hw]
    exact (hall [] (by simp)).symm
  | cons c t ih =>
    intro w hw
    show (match m (c :: (t ++ w)) with
      | some r => some r
      | none => scanO m (t ++ w)) =
      (match m (c :: t) with
      | some r => some r
      | none => scanO m t)
    rw [show c :: (t ++ w) = (c :: t) ++ w from rfl, hap (c :: t) w hw]
    cases hm : m (c :: t) with
    | some r => rfl
    | none => exact ih w hw

theorem ciContains_ws_head {pat : List Char} (hne : pat ≠ [])
    (hpat : ∀ p ∈ pat, isWS p = false) {c : Char} {t : List Char}
    (hc : isWS c = true) : ciContains pat (c :: t) = ciContains pat t := by
  cases pat with
  | nil => exact absurd rfl hne
  | cons p ps =>
    have hl : lowerA c ≠ p := by
      rw [lowerA_of_ws hc]
      exact ws_ne hc (hpat p (List.mem_cons_self p ps))
    simp [ciContains, ciStrip, hl]

theorem ciContains_all_ws {pat : List Char} (hne : pat ≠ [])
    (hpat : ∀ p ∈ pat, isWS p = false) :
    ∀ w, (∀ c ∈ w, isWS c = true) → ciContains pat w = false := by
  intro w
  induction w with
  | nil =>
    intro _
    cases pat with
    | nil => exact absurd rfl hne
    | cons p ps => rfl
  | cons c w2 ih =>
    intro hw
    rw [ciContains_ws_head hne hpat (hw c (List.mem_cons_self c w2))]
    exact ih fun q hq => hw q (List.mem_cons_of_mem c hq)

theorem ciContains_ws_front {pat : List Char} (hne : pat ≠ [])
    (hpat : ∀ p ∈ pat, isWS p = false) :
    ∀ w s, (∀ c ∈ w, isWS c = true) → ciContains pat (w ++ s) = ciContains pat s := by
  intro w
  induction w with
  | nil => intro s _; rfl
  | cons c w2 ih =>
    intro s hw
    rw [List.cons_append,
      ciContains_ws_head hne hpat (hw c (List.mem_cons_self c w2))]
    exact ih s fun q hq => hw q (List.mem_cons_of_mem c hq)

theorem ciContains_ws_back {pat : List Char} (hne : pat ≠ [])
    (hpat : ∀ p ∈ pat, isWS p = false) :
    ∀ s w, (∀ c ∈ w, isWS c = true) → ciContains pat (s ++ w) = ciContains pat s := by
  intro s
  induction s with
  | nil =>
    intro w hw
    rw [List.nil_append, ciContains_all_ws hne hpat w hw]
    cases pat with
    | nil => exact absurd rfl hne
    | cons p ps => rfl
  | cons c t ih =>
    intro w hw
    show ((ciStrip pat (c :: (t ++ w))).isSome || ciContains pat (t ++ w)) =
      ((ciStrip pat (c :: t)).isSome || ciContains pat t)
    rw [ih w hw, show c :: (t ++ w) = (c :: t) ++ w from rfl,
      ciStrip_append_ws hw pat (c :: t) hpat]
    cases ciStrip pat (c :: t) <;> rfl

theorem all_ws_takeWhile : ∀ l : List Char, ∀ c ∈ l.takeWhile isWS, isWS c = true := by
  intro l
  induction l with
  | nil => simp
  | cons c t ih =>
    rw [List.takeWhile_cons]
    by_cases hc : isWS c = true
    · rw [if_pos hc]
      intro d hd
      rcases List.mem_cons.mp hd with rfl | hd2
      · exact hc
      · exact ih d hd2
    · rw [if_neg hc]
      simp

theorem trim_decomp (p : List Char) :
    ∃ u v, (∀ c ∈ u, isWS c = true) ∧ (∀ c ∈ v, isWS c = true) ∧
      p = u ++ (trimJS p ++ v) := by
  refine ⟨p.takeWhile isWS, ((p.dropWhile isWS).reverse.takeWhile isWS).reverse,
    all_ws_takeWhile p, ?_, ?_⟩
  · intro c hc
    rw [List.mem_reverse] at hc
    exact all_ws_takeWhile _ c hc
  · conv_lhs => rw [← List.takeWhile_append_dropWhile (p := isWS) (l := p)]
    congr 1
    have hx : trimJS p = ((p.dropWhile isWS).reverse.dropWhile isWS).reverse := rfl
    rw [hx]
    conv_lhs => rw [← List.reverse_reverse (p.dropWhile isWS),
      ← List.takeWhile_append_dropWhile (p := isWS) (l := (p.dropWhile isWS).reverse)]
    rw [List.reverse_append]

theorem findZoneMatch_trim (p : List Char) :
    findZoneMatch (trimJS p) = findZoneMatch p := by
  obtain ⟨u, v, hu, hv, hp⟩ := trim_decomp p
  have h1 : scanO matchZoneAt (u ++ (trimJS p ++ v)) = scanO matchZoneAt (trimJS p ++ v) :=
    scanO_ws_front matchZoneAt (fun c t hc => matchZoneAt_ws_head hc) u _ hu
  have h2 : scanO matchZoneAt (trimJS p ++ v) = scanO matchZoneAt (trimJS p) :=
    scanO_ws_back matchZoneAt (fun t w hw => matchZoneAt_append_ws hw t)
      (fun t ht => matchZoneAt_all_ws ht) _ v hv
  show scanO matchZoneAt (trimJS p) = findZoneMatch p
  conv_rhs => rw [hp]
  exact (h1.trans h2).symm

theorem findCIDMatch_trim (p : List Char) :
    findCIDMatch (trimJS p) = findCIDMatch p := by
  obtain ⟨u, v, hu, hv, hp⟩ := trim_decomp p
  have h1 : scanO matchCIDAt (u ++ (trimJS p ++ v)) = scanO matchCIDAt (trimJS p ++ v) :=
    scanO_ws_front matchCIDAt (fun c t hc => matchCIDAt_ws_head hc) u _ hu
  have h2 : scanO matchCIDAt (trimJS p ++ v) = scanO matchCIDAt (trimJS p) :=
    scanO_ws_back matchCIDAt (fun t w hw => matchCIDAt_append_ws hw t)
      (fun t ht => matchCIDAt_all_ws ht) _ v hv
  show scanO matchCIDAt (trimJS p) = findCIDMatch p
  conv_rhs => rw [hp]
  exact (h1.trans h2).symm

theorem ciContains_trim (pat : List Char) (hne : pat ≠ [])
    (hpat : ∀ p ∈ pat, isWS p = false) (p : List Char) :
    ciContains pat (trimJS p) = ciContains pat p := by
  obtain ⟨u, v, hu, hv, hp⟩ := trim_decomp p
  conv_rhs => rw [hp]
  rw [ciContains_ws_front hne hpat u _ hu, ciContains_ws_back hne hpat _ v hv]

theorem stripMarkers_none : ∀ ms raw, (∀ m ∈ ms, firstIndexOf m raw = none) →
    stripMarkers ms raw = raw := by
  intro ms
  induction ms with
  | nil => intro raw _; rfl
  | cons m ms2 ih =>
    intro raw h
    unfold stripMarkers
    rw [h m (List.mem_cons_self m ms2)]
    exact ih raw fun q hq => h q (List.mem_cons_of_mem m hq)

theorem stripHeader_id {p : List Char} (h1 : firstIndexOf "]: ".data p = none)
    (h2 : ∀ m ∈ markers, firstIndexOf m p = none) : stripHeader p = p := by
  unfold stripHeader
  rw [h1]
  exact stripMarkers_none markers p h2

theorem litStart_self_append : ∀ (l t : List Char), litStart l (l ++ t) = true := by
  intro l
  induction l with
  | nil => intro t; rfl
  | cons c l2 ih =>
    intro t
    simp only [List.cons_append, litStart, beq_self_eq_true, Bool.true_and]
    exact ih t

theorem firstIndexOf_append_no_bracket :
    ∀ (pre s : List Char), (∀ c ∈ pre, c ≠ ']') →
      firstIndexOf "]: ".data (pre ++ s) =
        (firstIndexOf "]: ".data s).map (· + pre.length) := by
  intro pre
  induction pre with
  | nil =>
    intro s _
    rw [List.nil_append, List.length_nil]
    cases firstIndexOf "]: ".data s <;> simp
  | cons c t ih =>
    intro s h
    have hc : c ≠ ']' := h c (List.mem_cons_self c t)
    have hl : litStart "]: ".data (c :: (t ++ s)) = false := by
      rw [show ("]: ".data : List Char) = ']' :: ": ".data from rfl]
      show ((']' == c) && litStart ": ".data (t ++ s)) = false
      rw [beq_eq_false_iff_ne.mpr fun he => hc he.symm, Bool.false_and]
    rw [List.cons_append]
    show (if litStart "]: ".data (c :: (t ++ s)) = true then some 0
      else (firstIndexOf "]: ".data (t ++ s)).map (· + 1)) =
      (firstIndexOf "]: ".data s).map (· + (c :: t).length)
    rw [hl, if_neg Bool.false_ne_true, ih s fun q hq => h q (List.mem_cons_of_mem c hq)]
    cases firstIndexOf "]: ".data s with
    | none => rfl
    | some k =>
      simp only [Option.map_some', Option.some.injEq, List.length_cons]
      omega

theorem fio_frame (p : List Char) :
    firstIndexOf "]: ".data (frameEx ++ p) =
      some ("<134>Jan 1 12:00:00 host ENVISALINK[1".data.length) := by
  rw [show frameEx ++ p =
    "<134>Jan 1 12:00:00 host ENVISALINK[1".data ++ ("]: ".data ++ p) from rfl]
  rw [firstIndexOf_append_no_bracket _ _ (by decide)]
  have h0 : firstIndexOf "]: ".data ("]: ".data ++ p) = some 0 := by
    have hL : litStart "]: ".data ("]: ".data ++ p) = true := litStart_self_append _ _
    show (if litStart "]: ".data ("]: ".data ++ p) = true then some 0
      else (firstIndexOf "]: ".data (": ".data ++ p)).map (· + 1)) = some 0
    rw [hL, if_pos rfl]
  rw [h0]
  rfl

theorem stripHeader_frame (p : List Char) :
    stripHeader (frameEx ++ p) = trimJS p := by
  unfold stripHeader
  rw [fio_frame p]
  show trimJS ((frameEx ++ p).drop
    ("<134>Jan 1 12:00:00 host ENVISALINK[1".data.length + 3)) = trimJS p
  congr 1

/-! ## Claim theorems -/

/-- C1: for every raw text and every zones argument (a `null`/absent one
included), when none of the zone / alarm / arm / CID matchers recognises the
post-header content, classification still returns a populated record with
`event = "Other"`, `zone = null` and `message` equal to the post-header
content (totality itself is by construction of the embedding). -/
theorem classify_total_other_fallback (raw : List Char) (zonesArg : Option ZoneDir)
    (hz : findZoneMatch (stripHeader raw) = none)
    (ha : ciContains "alarm".data (stripHeader raw) = false)
    (hm : ciContains "arm".data (stripHeader raw) = false)
    (hc : findCIDMatch (stripHeader raw) = none) :
    (parseSyslogMessage raw zonesArg).event = "Other".data ∧
    (parseSyslogMessage raw zonesArg).zone = none ∧
    (parseSyslogMessage raw zonesArg).message = stripHeader raw := by
  unfold parseSyslogMessage
  simp [hz, ha, hm, hc]

/-- Witness for C1: the empty string with a null zones directory. -/
theorem classify_total_other_fallback_witness :
    (parseSyslogMessage [] none).event = "Other".data ∧
    (parseSyslogMessage [] none).zone = none ∧
    (parseSyslogMessage [] none).message = stripHeader [] :=
  classify_total_other_fallback [] none (by decide) (by decide) (by decide) (by decide)

/-- Counterexample to C2: the content `"Zone alarm: 1"` is matched by the
zone regex with action capture `"alarm"`, but the resulting event is
`"Zone alarm"`, not the canonical `"Zone Alarm"` — the source's suffix
normalisation does not canonicalise the letter casing of the matched word. -/
theorem zone_action_casing_counterexample :
    findZoneMatch (stripHeader "Zone alarm: 1".data) = some ("alarm".data, "1".data) ∧
    (parseSyslogMessage "Zone alarm: 1".data none).event ≠ "Zone Alarm".data := by decide

/-- C2 (amended): when the zone regex matches with the action word written in
its canonical capitalisation, the event is `"Zone "` plus the canonical
present-tense label, the zone is the decimal value of the captured digits,
the zone name is the directory lookup of that value, the message is the full
post-header content, and no later matcher contributes (partition/user stay
absent). -/
theorem zone_event_fields (raw : List Char) (zonesArg : Option ZoneDir)
    (a ds lbl : List Char)
    (hm : findZoneMatch (stripHeader raw) = some (a, ds))
    (hl : (a, lbl) ∈ canonActionTable) :
    (parseSyslogMessage raw zonesArg).event = "Zone ".data ++ lbl ∧
    (parseSyslogMessage raw zonesArg).zone = some (parseIntDec ds) ∧
    (parseSyslogMessage raw zonesArg).zoneName =
      some (getZoneName (zonesArg.getD []) (parseIntDec ds)) ∧
    (parseSyslogMessage raw zonesArg).message = stripHeader raw ∧
    (parseSyslogMessage raw zonesArg).partition = none ∧
    (parseSyslogMessage raw zonesArg).user = none := by
  unfold parseSyslogMessage
  simp only [hm]
  simp only [canonActionTable, List.map_cons, List.map_nil, List.mem_cons,
    List.not_mem_nil, or_false, Prod.mk.injEq] at hl
  rcases hl with h | h | h | h | h | h | h | h | h <;>
    obtain ⟨rfl, rfl⟩ := h <;>
    exact ⟨by decide, trivial, trivial, trivial, trivial, trivial⟩

/-- Witness for C2 (amended): `"Zone Opened: 003"` with a matching directory
entry. -/
theorem zone_event_fields_witness :
    (parseSyslogMessage "Zone Opened: 003".data (some [("3".data, "Garage Door".data)])).event =
      "Zone ".data ++ "Open".data ∧
    (parseSyslogMessage "Zone Opened: 003".data (some [("3".data, "Garage Door".data)])).zone =
      some (parseIntDec "003".data) ∧
    (parseSyslogMessage "Zone Opened: 003".data (some [("3".data, "Garage Door".data)])).zoneName =
      some (getZoneName ((some [("3".data, "Garage Door".data)]).getD [])
        (parseIntDec "003".data)) ∧
    (parseSyslogMessage "Zone Opened: 003".data (some [("3".data, "Garage Door".data)])).message =
      stripHeader "Zone Opened: 003".data ∧
    (parseSyslogMessage "Zone Opened: 003".data (some [("3".data, "Garage Door".data)])).partition =
      none ∧
    (parseSyslogMessage "Zone Opened: 003".data (some [("3".data, "Garage Door".data)])).user =
      none :=
  zone_event_fields "Zone Opened: 003".data (some [("3".data, "Garage Door".data)])
    "Opened".data "003".data "Open".data (by decide) (by decide)

/-- Counterexample to C3: `"Zone Alarm: 005"` contains the substrings
`"alarm"` and `"arm"` case-insensitively, yet classification yields
`"Zone Alarm"` with a populated zone field — the zone matcher runs before
the alarm substring check, contradicting the claim's quantification over
every content containing both substrings. -/
theorem alarm_priority_counterexample :
    ciContains "alarm".data (stripHeader "Zone Alarm: 005".data) = true ∧
    ciContains "arm".data (stripHeader "Zone Alarm: 005".data) = true ∧
    (parseSyslogMessage "Zone Alarm: 005".data none).event ≠ "Alarm".data ∧
    (parseSyslogMessage "Zone Alarm: 005".data none).zone ≠ none := by decide

/-- C3 (amended): for content containing both `"alarm"` and `"arm"`
case-insensitively that the zone matcher does not recognise, the event is
`"Alarm"` (never an armed/disarmed variant) and no zone, partition or user
field is populated. -/
theorem alarm_substring_priority (raw : List Char) (zonesArg : Option ZoneDir)
    (hz : findZoneMatch (stripHeader raw) = none)
    (ha : ciContains "alarm".data (stripHeader raw) = true)
    (hm : ciContains "arm".data (stripHeader raw) = true) :
    (parseSyslogMessage raw zonesArg).event = "Alarm".data ∧
    (parseSyslogMessage raw zonesArg).zone = none ∧
    (parseSyslogMessage raw zonesArg).zoneName = none ∧
    (parseSyslogMessage raw zonesArg).partition = none ∧
    (parseSyslogMessage raw zonesArg).user = none := by
  unfold parseSyslogMessage
  simp [hz, ha]

/-- Witness for C3 (amended): `"Alarm Activated"`. -/
theorem alarm_substring_priority_witness :
    (parseSyslogMessage "Alarm Activated".data none).event = "Alarm".data ∧
    (parseSyslogMessage "Alarm Activated".data none).zone = none ∧
    (parseSyslogMessage "Alarm Activated".data none).zoneName = none ∧
    (parseSyslogMessage "Alarm Activated".data none).partition = none ∧
    (parseSyslogMessage "Alarm Activated".data none).user = none :=
  alarm_substring_priority "Alarm Activated".data none (by decide) (by decide) (by decide)

/-- Counterexample to C6: zone 9 stored under the zero-padded key `"09"` is
not found — `getZoneName` compares keys by their exact string form, so the
fallback label is returned instead of the mapped name. -/
theorem zone_name_padded_key_counterexample :
    getZoneName [("09".data, "Front Door".data)] 9 ≠ "Front Door".data ∧
    getZoneName [("09".data, "Front Door".data)] 9 = "Zone ".data ++ "9".data := by decide

/-- C6 (amended): a zone id is found only under its plain decimal key (no
leading zeros): a non-empty name stored under that exact key is returned,
and an id with no such key gets exactly `"Zone " + n` with `n` in plain
decimal form.  Keys compare by string form, not integer value. -/
theorem zone_name_plain_key (zones : ZoneDir) (n : Nat) :
    (∀ v, List.lookup (natDec n) zones = some v → v ≠ [] → getZoneName zones n = v) ∧
    (List.lookup (natDec n) zones = none →
      getZoneName zones n = "Zone ".data ++ natDec n) := by
  constructor
  · intro v h hv
    unfold getZoneName
    simp only [h]
    cases v with
    | nil => exact absurd rfl hv
    | cons a t => simp [List.isEmpty]
  · intro h
    unfold getZoneName
    simp [h]

/-- Witness for C6 (amended): a present plain key and an absent key. -/
theorem zone_name_plain_key_witness :
    getZoneName [("9".data, "Master Bedroom Window".data)] 9 =
      "Master Bedroom Window".data ∧
    getZoneName [] 3 = "Zone ".data ++ natDec 3 :=
  ⟨(zone_name_plain_key [("9".data, "Master Bedroom Window".data)] 9).1
      "Master Bedroom Window".data (by decide) (by decide),
   (zone_name_plain_key [] 3).2 (by decide)⟩

/-- C10: an entry whose friendly name is the empty string is falsy and thus
treated as absent: the fallback label is returned, and in general a mapped
name is returned only when it is non-empty. -/
theorem zone_name_empty_falsy (zones : ZoneDir) (n : Nat) :
    (List.lookup (natDec n) zones = some [] →
      getZoneName zones n = "Zone ".data ++ natDec n) ∧
    (∀ v, List.lookup (natDec n) zones = some v →
      getZoneName zones n = if v = [] then "Zone ".data ++ natDec n else v) := by
  constructor
  · intro h
    unfold getZoneName
    simp [h]
  · intro v h
    unfold getZoneName
    simp only [h]
    cases v <;> simp [List.isEmpty]

/-- Witness for C10: zone 9 mapped to the empty name yields the fallback. -/
theorem zone_name_empty_falsy_witness :
    getZoneName [("9".data, [])] 9 = "Zone ".data ++ natDec 9 :=
  (zone_name_empty_falsy [("9".data, [])] 9).1 (by decide)

/-- C4: for every 9- or 10-digit token, the decoder extracts the fixed-width
fields (qualifier = digit 0, event code = digits 1–3, partition = digits 4–5,
zone-or-user = digits 6–8), a 10th digit has no influence on any field
(`parseCID l = parseCID (l.take 9)`), the classifier's partition/user record
fields come from the decoded integers, and a token of fewer than nine digits
decodes to nothing. -/
theorem cid_decode_fields (l raw : List Char) (zonesArg : Option ZoneDir) :
    (l.length = 9 ∨ l.length = 10 →
      parseCID l = parseCID (l.take 9) ∧
      ∃ r, parseCID l = some r ∧
        r.qualifier = l.getD 0 ' ' ∧
        r.eventCode = (l.drop 1).take 3 ∧
        r.partition = parseIntDec ((l.drop 4).take 2) ∧
        r.zoneOrUser = parseIntDec ((l.drop 6).take 3)) ∧
    (l.length < 9 → parseCID l = none) ∧
    (findZoneMatch (stripHeader raw) = none →
      ciContains "alarm".data (stripHeader raw) = false →
      ciContains "arm".data (stripHeader raw) = false →
      findCIDMatch (stripHeader raw) = some l →
      ∀ r, parseCID l = some r →
        (parseSyslogMessage raw zonesArg).partition = some r.partition ∧
        (parseSyslogMessage raw zonesArg).user = some r.zoneOrUser) := by
  refine ⟨?_, ?_, ?_⟩
  · intro h
    rcases l with _ | ⟨c0, _ | ⟨c1, _ | ⟨c2, _ | ⟨c3, _ | ⟨c4, _ | ⟨c5, _ | ⟨c6, _ |
      ⟨c7, _ | ⟨c8, rest⟩⟩⟩⟩⟩⟩⟩⟩⟩ <;>
      simp only [List.length_nil, List.length_cons] at h <;>
      try (exfalso; rcases h with h | h <;> omega)
    rcases rest with _ | ⟨c9, rest2⟩
    · exact ⟨rfl, _, rfl, rfl, rfl, rfl, rfl⟩
    · rcases rest2 with _ | ⟨c10, rest3⟩
      · exact ⟨rfl, _, rfl, rfl, rfl, rfl, rfl⟩
      · exfalso
        simp only [List.length_cons] at h
        rcases h with h | h <;> omega
  · intro h
    unfold parseCID
    rw [if_pos h]
  · intro hz ha hm hc r hr
    unfold parseSyslogMessage
    simp [hz, ha, hm, hc, hr]

/-- Witness for C4: a real arm event token, a truncated token, and the
partition/user fields of a classified CID message. -/
theorem cid_decode_fields_witness :
    parseCID "34410100".data = none ∧
    (parseSyslogMessage "CID Event: 3441010020".data none).partition = some 1 ∧
    (parseSyslogMessage "CID Event: 3441010020".data none).user = some 2 := by
  have h1 := cid_decode_fields "34410100".data [] none
  have h2 := cid_decode_fields "3441010020".data "CID Event: 3441010020".data none
  have h3 := h2.2.2 (by decide) (by decide) (by decide) (by decide)
    ⟨'3', "441".data, "Armed Stay".data, 1, 2, "Armed Stay/Disarmed".data⟩ (by decide)
  exact ⟨h1.2.1 (by decide), h3.1, h3.2⟩

/-- C5: classification of a decoded token's event label: arm-family codes
split on the qualifier (`1` → Disarmed, `3` → the stay/away/night/generic
armed variants, anything else → table description or `"CID " + code`);
otherwise codes whose numeric value lies in `[100, 200)` yield `"Alarm"`;
otherwise the table phrase, or `"CID " + code` when absent. -/
theorem cid_event_label (l : List Char) (r : CIDResult)
    (hp : parseCID l = some r) :
    ((l.drop 1).take 3 ∈ armCodes →
      (l.getD 0 ' ' = '1' → r.event = "Disarmed".data) ∧
      (l.getD 0 ' ' = '3' → r.event =
        (if (l.drop 1).take 3 = "441".data then "Armed Stay".data
         else if (l.drop 1).take 3 = "442".data then "Armed Away".data
         else if (l.drop 1).take 3 = "443".data then "Armed Night".data
         else "Armed".data)) ∧
      (l.getD 0 ' ' ≠ '1' → l.getD 0 ' ' ≠ '3' →
        r.event = jsOrStr (CID_EVENT_CODES.lookup ((l.drop 1).take 3))
          ("CID ".data ++ (l.drop 1).take 3))) ∧
    ((l.drop 1).take 3 ∉ armCodes →
      100 ≤ parseIntDec ((l.drop 1).take 3) → parseIntDec ((l.drop 1).take 3) < 200 →
      r.event = "Alarm".data) ∧
    ((l.drop 1).take 3 ∉ armCodes →
      ¬(100 ≤ parseIntDec ((l.drop 1).take 3) ∧ parseIntDec ((l.drop 1).take 3) < 200) →
      r.event = jsOrStr (CID_EVENT_CODES.lookup ((l.drop 1).take 3))
        ("CID ".data ++ (l.drop 1).take 3)) := by
  have h9 : ¬ l.length < 9 := by
    intro h
    rw [parseCID, if_pos h] at hp
    exact Option.noConfusion hp
  rw [parseCID, if_neg h9] at hp
  simp only [Option.some.injEq] at hp
  subst hp
  refine ⟨?_, ?_, ?_⟩
  · intro harm
    refine ⟨?_, ?_, ?_⟩
    · intro hq
      show cidEventName (l.getD 0 ' ') ((l.drop 1).take 3) = _
      unfold cidEventName
      rw [if_pos harm, if_pos hq]
    · intro hq
      show cidEventName (l.getD 0 ' ') ((l.drop 1).take 3) = _
      unfold cidEventName
      rw [if_pos harm, hq, if_neg (by decide), if_pos rfl]
    · intro h1 h3
      show cidEventName (l.getD 0 ' ') ((l.drop 1).take 3) = _
      unfold cidEventName
      rw [if_pos harm, if_neg h1, if_neg h3]
  · intro harm h100 h200
    show cidEventName (l.getD 0 ' ') ((l.drop 1).take 3) = _
    unfold cidEventName
    rw [if_neg harm, if_pos ⟨h100, h200⟩]
  · intro harm hn
    show cidEventName (l.getD 0 ' ') ((l.drop 1).take 3) = _
    unfold cidEventName
    rw [if_neg harm, if_neg hn]

/-- Witness for C5: qualifier `1` on arm-family code 441 decodes to
`"Disarmed"`. -/
theorem cid_event_label_witness :
    ∃ r, parseCID "1441010020".data = some r ∧ r.event = "Disarmed".data := by
  refine ⟨_, rfl, ?_⟩
  exact ((cid_event_label "1441010020".data _ rfl).1 (by decide)).1 (by decide)

/-- C7: on a successful Contact-ID decode the message is the post-header
content followed by the parenthesized annotation, with the partition clause
present iff the decoded partition is non-zero and the user clause present
iff the decoded zone-or-user is non-zero, and with the description being the
table phrase or `"Unknown (<code>)"` for codes absent from the table. -/
theorem cid_message_annotation (raw : List Char) (zonesArg : Option ZoneDir)
    (tok : List Char) (cid : CIDResult)
    (hz : findZoneMatch (stripHeader raw) = none)
    (ha : ciContains "alarm".data (stripHeader raw) = false)
    (hm : ciContains "arm".data (stripHeader raw) = false)
    (hc : findCIDMatch (stripHeader raw) = some tok)
    (hp : parseCID tok = some cid) :
    (parseSyslogMessage raw zonesArg).message =
      stripHeader raw ++ " (".data ++ cid.description ++
        (if cid.partition ≠ 0 then ", partition ".data ++ natDec cid.partition else []) ++
        (if cid.zoneOrUser ≠ 0 then ", user ".data ++ natDec cid.zoneOrUser else []) ++
        ")".data ∧
    cid.description =
      jsOrStr (CID_EVENT_CODES.lookup ((tok.drop 1).take 3))
        ("Unknown (".data ++ (tok.drop 1).take 3 ++ ")".data) := by
  constructor
  · unfold parseSyslogMessage
    simp only [hz, ha, hm, hc, hp]
    have hpe : ∀ z : Nat, (("partition ".data ++ natDec z)).isEmpty = false := fun _ => rfl
    by_cases h0 : cid.partition = 0 <;> by_cases h1 : cid.zoneOrUser = 0 <;>
      simp [h0, h1, hpe, List.append_assoc]
  · have h9 : ¬ tok.length < 9 := by
      intro h
      rw [parseCID, if_pos h] at hp
      exact Option.noConfusion hp
    rw [parseCID, if_neg h9] at hp
    simp only [Option.some.injEq] at hp
    subst hp
    rfl

/-- Witness for C7: an unknown code 999 with partition 1 and user 1. -/
theorem cid_message_annotation_witness :
    (parseSyslogMessage "CID Event: 1999010010".data none).message =
      stripHeader "CID Event: 1999010010".data ++ " (".data ++
        ("Unknown (999)".data : List Char) ++
        (if (1 : Nat) ≠ 0 then ", partition ".data ++ natDec 1 else []) ++
        (if (1 : Nat) ≠ 0 then ", user ".data ++ natDec 1 else []) ++ ")".data ∧
    ("Unknown (999)".data : List Char) =
      jsOrStr (CID_EVENT_CODES.lookup (("1999010010".data.drop 1).take 3))
        ("Unknown (".data ++ ("1999010010".data.drop 1).take 3 ++ ")".data) :=
  cid_message_annotation "CID Event: 1999010010".data none "1999010010".data
    ⟨'1', "999".data, "CID 999".data, 1, 1, "Unknown (999)".data⟩
    (by decide) (by decide) (by decide) (by decide) (by decide)

/-- C8: field-presence invariant of every returned record: `zoneName` is
present iff `zone` is present, `partition` and `user` are present together,
and they are present only when the content carried a Contact-ID token that
decoded successfully. -/
theorem field_presence_invariant (raw : List Char) (zonesArg : Option ZoneDir) :
    ((parseSyslogMessage raw zonesArg).zone.isSome ↔
      (parseSyslogMessage raw zonesArg).zoneName.isSome) ∧
    ((parseSyslogMessage raw zonesArg).partition.isSome ↔
      (parseSyslogMessage raw zonesArg).user.isSome) ∧
    ((parseSyslogMessage raw zonesArg).partition.isSome →
      ∃ tok cid, findCIDMatch (stripHeader raw) = some tok ∧ parseCID tok = some cid) := by
  unfold parseSyslogMessage
  rcases hz : findZoneMatch (stripHeader raw) with _ | ⟨a, ds⟩
  · simp only [hz]
    by_cases ha : ciContains "alarm".data (stripHeader raw) = true
    · simp [ha]
    · simp only [Bool.not_eq_true] at ha
      by_cases hm : ciContains "arm".data (stripHeader raw) = true
      · simp [ha, hm]
      · simp only [Bool.not_eq_true] at hm
        rcases hc : findCIDMatch (stripHeader raw) with _ | tok
        · simp [ha, hm, hc]
        · rcases hp : parseCID tok with _ | cid
          · simp [ha, hm, hc, hp]
          · simp only [ha, hm, hc, hp, Bool.false_eq_true, if_false]
            refine ⟨by simp, by simp, fun _ => ⟨tok, cid, rfl, hp⟩⟩
  · simp [hz]

/-- Witness for C8: a classified CID message has its partition present and
indeed carries a decodable token. -/
theorem field_presence_invariant_witness :
    ∃ tok cid, findCIDMatch (stripHeader "CID Event: 3441010020".data) = some tok ∧
      parseCID tok = some cid :=
  (field_presence_invariant "CID Event: 3441010020".data none).2.2 (by decide)

/-- Counterexample to C9: a payload that itself contains `"]: "` is
classified differently bare and framed — bare, the header stripper cuts the
payload at its own `"]: "` and the result is `"Other"`; framed, the stripper
cuts at the frame and the zone event survives. -/
theorem header_idem_counterexample :
    (parseSyslogMessage "Zone Open: 001]: x".data none).event = "Other".data ∧
    (parseSyslogMessage (frameEx ++ "Zone Open: 001]: x".data) none).event =
      "Zone Open".data := by
  refine ⟨by decide, by decide⟩

/-- C9 (amended): for every payload that contains neither the `"]: "`
sequence nor any vendor marker, classifying the bare payload and the payload
wrapped in the example syslog frame yields identical `event`, `zone` and
`zoneName` fields. -/
theorem header_strip_idem (p : List Char) (zonesArg : Option ZoneDir)
    (h1 : firstIndexOf "]: ".data p = none)
    (h2 : ∀ m ∈ markers, firstIndexOf m p = none) :
    (parseSyslogMessage (frameEx ++ p) zonesArg).event =
      (parseSyslogMessage p zonesArg).event ∧
    (parseSyslogMessage (frameEx ++ p) zonesArg).zone =
      (parseSyslogMessage p zonesArg).zone ∧
    (parseSyslogMessage (frameEx ++ p) zonesArg).zoneName =
      (parseSyslogMessage p zonesArg).zoneName := by
  have hs1 : stripHeader p = p := stripHeader_id h1 h2
  have hs2 : stripHeader (frameEx ++ p) = trimJS p := stripHeader_frame p
  have hz := findZoneMatch_trim p
  have hc := findCIDMatch_trim p
  have hA := ciContains_trim "alarm".data (by decide) (by decide) p
  have hR := ciContains_trim "arm".data (by decide) (by decide) p
  have hD := ciContains_trim "disarm".data (by decide) (by decide) p
  have hS := ciContains_trim "stay".data (by decide) (by decide) p
  have hW := ciContains_trim "away".data (by decide) (by decide) p
  have hN := ciContains_trim "night".data (by decide) (by decide) p
  have hI := ciContains_trim "instant".data (by decide) (by decide) p
  simp only [parseSyslogMessage, hs1, hs2, hz, hc, hA, hR, hD, hS, hW, hN, hI]
  rcases hm : findZoneMatch p with _ | ⟨a, ds⟩
  · simp only [hm]
    by_cases hA1 : ciContains "alarm".data p = true
    · simp [hA1]
    · simp only [Bool.not_eq_true] at hA1
      simp only [hA1, Bool.false_eq_true, if_false]
      by_cases hR1 : ciContains "arm".data p = true
      · simp [hR1]
      · simp only [Bool.not_eq_true] at hR1
        simp only [hR1, Bool.false_eq_true, if_false]
        rcases hc1 : findCIDMatch p with _ | tok
        · simp [hc1]
        · rcases hp1 : parseCID tok with _ | cid <;> simp [hc1, hp1]
  · simp [hm]

/-- Witness for C9 (amended): the spec's own example payload. -/
theorem header_strip_idem_witness :
    (parseSyslogMessage (frameEx ++ "Zone Open: 001".data) none).event =
      (parseSyslogMessage "Zone Open: 001".data none).event ∧
    (parseSyslogMessage (frameEx ++ "Zone Open: 001".data) none).zone =
      (parseSyslogMessage "Zone Open: 001".data none).zone ∧
    (parseSyslogMessage (frameEx ++ "Zone Open: 001".data) none).zoneName =
      (parseSyslogMessage "Zone Open: 001".data none).zoneName :=
  header_strip_idem "Zone Open: 001".data none (by decide) (by decide)

end Envisalink
